import Mathlib

/-!
Shallow embedding of the feedlynx link-intake core (Rust) in Lean 4.

Translated from the repository sources:
  * `src/feed.rs`    — feed data model, `add_url_if_new`, `add_url`, `trim_entries`
  * `src/webpage.rs` — `WebPage`, `set_if_longer`
  * `src/base62.rs`  — rejection-sampling id generator (`gen!` macro, `base62`)
  * `src/server.rs`  — `validate_request`, `Server::add` pipeline, form extraction,
                       `not_modified` and the `GET /feed/{token}` route logic

Modelling conventions:
  * Timestamps (`chrono::DateTime<Utc>`) are `Int` values (abstract time units;
    seconds where a concrete scale matters).  `SystemTime` values on the feed
    route are `Nat` nanoseconds since the UNIX epoch: file mtimes and
    `httpdate`-parsed header values are at or after the epoch, where
    `duration_since(UNIX_EPOCH)` is total.
  * Sources of nondeterminism in the Rust code (`Utc::now()`, `unique_tag_id()`,
    the entropy stream, network fetches, file I/O results) are passed in as
    explicit parameters.
  * External trusted crates keep their interface only: `uriparse::URI` values
    are represented by their string rendering (`url.to_string()` is the only
    observation the core makes besides the YouTube helpers, which no property
    here touches); `form_urlencoded::parse` output is a decoded key/value list;
    the Atom XML (de)serializer is out of scope.
  * `atom::Entry`'s `summary` field (built by `summary_for_url`) and the
    reader/writer lock around the feed file are elided: no property below
    observes them.
-/

/-! ## Data model (src/feed.rs, src/webpage.rs, atom_syndication) -/

/-- `atom::Person`. -/
structure Person where
  name : String
  uri : Option String := none
deriving DecidableEq, Repr

/-- `atom::Link`: only the fields feedlynx sets (`href`, `rel`). -/
structure Link where
  href : String
  rel : String := ""
deriving DecidableEq, Repr

/-- `atom::Entry`: the fields feedlynx reads or writes (`summary` elided,
see the module comment). `updated` is an abstract integer timestamp. -/
structure Entry where
  title : String
  id : String
  updated : Int
  links : List Link
  authors : List Person
deriving DecidableEq, Repr

/-- `webpage::WebPage` metadata as consumed by `Feed::add_url`
(`feed.rs` reads `page.title`, `page.description`, `page.author`). -/
structure WebPage where
  title : Option String := none
  description : Option String := none
  author : Option String := none
deriving DecidableEq, Repr

/-- The generator element set by `Feed::set_generator` (package name and version). -/
structure GeneratorInfo where
  value : String
  version : Option String := none
deriving DecidableEq, Repr

/-- The build-time `CARGO_PKG_VERSION` string; its exact value is immaterial here. -/
def cargoPkgVersion : String := "0.0.0"

/-- `atom::Feed` as owned by `feed::Feed` (the on-disk path is elided). -/
structure AtomFeed where
  title : String
  id : String
  updated : Int
  authors : List Person
  generator : Option GeneratorInfo
  entries : List Entry
deriving DecidableEq, Repr

/-- `feed::AddResult`. -/
inductive AddResult where
  | Added
  | Duplicate
deriving DecidableEq, Repr

/-! ## Feed operations (src/feed.rs) -/

/-- `Feed::set_generator`. -/
def setGenerator (feed : AtomFeed) : AtomFeed :=
  { feed with generator := some { value := "feedlynx", version := some cargoPkgVersion } }

/-- `Feed::add_url` (feed.rs lines 71–102).  `url` is the string rendering of
the `&URI` argument (`url.to_string()`); `now` and `newId` stand for
`Utc::now()` and `unique_tag_id()`. -/
def AtomFeed.add_url (feed : AtomFeed) (url : String) (page : WebPage) (now : Int)
    (newId : String) : AtomFeed :=
  let link : Link := { href := url, rel := "alternate" }
  let authors : List Person :=
    (page.author.map fun author => [{ name := author : Person }]).getD []
  let entry : Entry :=
    { title := page.title.getD "Untitled"
      id := newId
      updated := now
      links := [link]
      authors := authors }
  let feed := { feed with entries := feed.entries ++ [entry] }
  let feed := setGenerator feed
  { feed with updated := now }

/-- `Feed::add_url_if_new` (feed.rs lines 55–69): scan every link of every
entry for an exact string match on `href`; on a hit return `Duplicate` and
leave the feed untouched, otherwise append via `add_url`. -/
def AtomFeed.add_url_if_new (feed : AtomFeed) (url : String) (page : WebPage)
    (now : Int) (newId : String) : AddResult × AtomFeed :=
  let duplicate :=
    feed.entries.any fun entry => entry.links.any fun link => link.href == url
  if duplicate then
    (AddResult.Duplicate, feed)
  else
    (AddResult.Added, feed.add_url url page now newId)

/-- `feed::MIN_ENTRIES`. -/
def MIN_ENTRIES : Nat := 50

/-- `feed::TRIM_AGE = TimeDelta::days(30)`, in seconds. -/
def TRIM_AGE : Int := 30 * 24 * 60 * 60

/-- The body of the `filter` closure in `trim_entries` (feed.rs lines 174–190),
with the captured mutable `num_trim` made an explicit argument: while
`num_trim ≠ 0`, an entry with `now - entry.updated > trim_age` is dropped and
`num_trim` decremented; every other entry is kept. -/
def trimFilter (now trim_age : Int) : Nat → List Entry → List Entry
  | _, [] => []
  | numTrim, e :: es =>
    if numTrim = 0 then
      e :: trimFilter now trim_age 0 es
    else if now - e.updated > trim_age then
      trimFilter now trim_age (numTrim - 1) es
    else
      e :: trimFilter now trim_age numTrim es

/-- Free function `trim_entries` (feed.rs lines 161–191): return unchanged when
at most `min_entries` entries; otherwise sort by `updated` ascending
(`sort_by` is a stable merge sort, as is `List.mergeSort`) and drop, scanning
oldest-first, entries older than `trim_age` until `len - min_entries` have
been dropped. -/
def trim_entries (entries : List Entry) (min_entries : Nat) (trim_age : Int)
    (now : Int) : List Entry :=
  if entries.length ≤ min_entries then
    entries
  else
    let sorted := entries.mergeSort fun a b => decide (a.updated ≤ b.updated)
    trimFilter now trim_age (entries.length - min_entries) sorted

/-- Method `Feed::trim_entries` (feed.rs lines 105–107). -/
def AtomFeed.trim (feed : AtomFeed) (now : Int) : AtomFeed :=
  { feed with entries := trim_entries feed.entries MIN_ENTRIES TRIM_AGE now }

/-! ## Webpage metadata candidate update (src/webpage.rs) -/

/-- `webpage::set_if_longer` (webpage.rs lines 118–126).  Rust's
`str::len()` is the UTF-8 byte length, i.e. `String.utf8ByteSize`.
The in-place mutation of `&mut Option<String>` is modelled by returning
the new value. -/
def set_if_longer (value : Option String) (candidate : String) : Option String :=
  match value with
  | some existing =>
    if candidate.utf8ByteSize > existing.utf8ByteSize then some candidate
    else some existing
  | none => some candidate

/-! ## Base62 id generator (src/base62.rs) -/

/-- `base62::MASK = (62 : usize).next_power_of_two() - 1 = 63`. -/
def MASK : Nat := 63

/-- `base62::ALPHABET`. -/
def ALPHABET : List Char :=
  "ModuleSymbhasOwnPr0123456789ABCDEFGHNRVfgctiUvzKqYTJkLxpZXIjQW".data

/-- The byte-consuming loop of `gen!` (base62.rs lines 30–42) over an explicit
finite stream of random bytes (`minrandom::fill_buf` refills the buffer from
the entropy source; batch boundaries do not affect the output, so the batches
are modelled as one concatenated stream).  `none` means the stream ran out
before `N` characters were produced (in Rust the loop would keep drawing). -/
def base62Go (N : Nat) : List Nat → List Char → Option (List Char)
  | [], _ => none
  | b :: bs, id =>
    let idx := b &&& MASK
    let id' := if idx < 62 then id ++ [ALPHABET.getD idx ' '] else id
    if id'.length = N then some id' else base62Go N bs id'

/-- `base62::<N>()` (base62.rs lines 24–43) over an explicit byte stream.
The Rust buffer `vec![0u8; 8 * N / 5]` is empty when `N = 0`, so the refill
loop can never reach the length check and no string is ever produced; that
case is `none` regardless of the stream. -/
def base62 (N : Nat) (stream : List Nat) : Option String :=
  if 8 * N / 5 = 0 then none
  else (base62Go N stream []).map List.asString

/-! ## HTTP gateway (src/server.rs) -/

def CREATED : Nat := 201
def NOT_MODIFIED : Nat := 304
def BAD_REQUEST : Nat := 400
def UNAUTHORIZED : Nat := 401
def UNSUPPORTED_MEDIA_TYPE : Nat := 415
def INTERNAL_SERVER_ERROR : Nat := 500

/-- `server::StatusError`. -/
structure StatusError where
  code : Nat
  message : String
deriving DecidableEq, Repr

/-- `Server::validate_request` (server.rs lines 310–326): the `Content-Type`
header value, or `none` when the header is absent.  The value is compared for
exact string equality with `application/x-www-form-urlencoded`. -/
def validate_request (contentType : Option String) : Except StatusError Unit :=
  match contentType with
  | none => Except.error { code := BAD_REQUEST, message := "Missing Content-Type" }
  | some v =>
    if v ≠ "application/x-www-form-urlencoded" then
      Except.error { code := UNSUPPORTED_MEDIA_TYPE, message := "Unsupported media type" }
    else
      Except.ok ()

/-- The three `Option` accumulators of `Server::add`'s form walk. -/
structure AddForm where
  token : Option String := none
  url : Option String := none
  title : Option String := none
deriving DecidableEq, Repr

/-- The `form_urlencoded::parse(..).for_each` walk of `Server::add`
(server.rs lines 232–237): each matching pair overwrites the accumulator, so
the last occurrence of a key wins.  `pairs` is the decoded key/value sequence
produced by the (trusted) `form_urlencoded` crate. -/
def extractAddForm (pairs : List (String × String)) : AddForm :=
  pairs.foldl
    (fun acc kv =>
      match kv.1 with
      | "token" => { acc with token := some kv.2 }
      | "url" => { acc with url := some kv.2 }
      | "title" => { acc with title := some kv.2 }
      | _ => acc)
    {}

/-- The corresponding walk of `Server::info` (server.rs lines 288–291),
which only extracts `token`. -/
def extractInfoToken (pairs : List (String × String)) : Option String :=
  pairs.foldl
    (fun acc kv =>
      match kv.1 with
      | "token" => some kv.2
      | _ => acc)
    none

/-- The value of the last pair in `pairs` whose key is `k` (specification
device for the last-occurrence-wins property). -/
def lastValue (k : String) (pairs : List (String × String)) : Option String :=
  ((pairs.filter fun kv => kv.1 = k).getLast?).map fun kv => kv.2

/-- `Server::add` (server.rs lines 223–279).  Explicit parameters stand for
the environment: `priv_token` for `self.private_token`; `contentType` for the
request's header; `pairs` for the decoded form body; `parse` for
`URI::try_from(..).ok()` composed with `to_string` (the trusted `uriparse`
crate); `fetched` for the `webpage::fetch` outcome (`none` = any fetch error,
which degrades to `WebPage::default()`); `feedFile` for the `Feed::read`
result; `saveOk` for the `Feed::save` outcome; `now`/`newId` for
`Utc::now()`/`unique_tag_id()`.  Note: this code path calls `Feed::add_url`
directly — it does not consult `add_url_if_new`. -/
def Server.add (priv_token : String) (contentType : Option String)
    (pairs : List (String × String)) (parse : String → Option String)
    (fetched : String → Option WebPage) (feedFile : Option AtomFeed)
    (saveOk : Bool) (now : Int) (newId : String) : Except StatusError AtomFeed :=
  match validate_request contentType with
  | Except.error e => Except.error e
  | Except.ok () =>
    let form := extractAddForm pairs
    match form.token with
    | none => Except.error { code := BAD_REQUEST, message := "Missing token" }
    | some token =>
      if priv_token ≠ token then
        Except.error { code := UNAUTHORIZED, message := "Invalid token" }
      else
        match form.url.bind parse with
        | none => Except.error { code := BAD_REQUEST, message := "Invalid URL" }
        | some url =>
          let page := (fetched url).getD {}
          let page :=
            match form.title with
            | some t => { page with title := set_if_longer page.title t }
            | none => page
          match feedFile with
          | none =>
            Except.error { code := INTERNAL_SERVER_ERROR, message := "Unable to read feed file" }
          | some feed =>
            let feed := feed.add_url url page now newId
            let feed := feed.trim now
            if saveOk then Except.ok feed
            else Except.error { code := INTERNAL_SERVER_ERROR, message := "Error saving feed file" }

/-- The `(Method::Post, "/add")` response arm of `Server::handle_requests`
(server.rs lines 161–170): status code and body. -/
def handleAdd (priv_token : String) (contentType : Option String)
    (pairs : List (String × String)) (parse : String → Option String)
    (fetched : String → Option WebPage) (feedFile : Option AtomFeed)
    (saveOk : Bool) (now : Int) (newId : String) : Nat × String :=
  match Server.add priv_token contentType pairs parse fetched feedFile saveOk now newId with
  | Except.ok _ => (CREATED, "Added\n")
  | Except.error e => (e.code, "Failed: " ++ e.message ++ "\n")

/-! ## Conditional GET on the feed route (src/server.rs) -/

/-- `server::not_modified` (server.rs lines 390–398).  Times are `Nat`
nanoseconds since the UNIX epoch (see module comment), where
`duration_since(UNIX_EPOCH)` is total and `Duration::as_secs` is division
by `10^9`. -/
def not_modified (modified if_modified_since : Nat) : Bool :=
  modified / 1000000000 ≤ if_modified_since / 1000000000

/-- A response on the feed route: status, body (`none` for
`Response::empty`), the explicitly set `Content-Type` header, and the mtime
carried in a `Last-Modified` header. -/
structure FeedResponse where
  status : Nat
  body : Option String
  contentType : Option String
  lastModified : Option Nat
deriving DecidableEq, Repr

/-- The 200 arm of the feed route: stream the file with the Atom content type
and, when the mtime is known, a `Last-Modified` header. -/
def feedOkResponse (content : String) (modified : Option Nat) : FeedResponse :=
  { status := 200
    body := some content
    contentType := some "application/atom+xml"
    lastModified := modified }

/-- The `(Method::Get, feed_route)` arm of `Server::handle_requests`
(server.rs lines 103–159).  `file` is the `File::open` outcome: file content
plus the mtime when `metadata().modified()` succeeded; `ifModifiedSince` is
the parsed `If-Modified-Since` header (`none` when absent or unparsable).
The open-failure arm serves the 500 page (its `Content-Type` is the
`tiny_http` `from_string` default, not modelled). -/
def handleFeedRoute (file : Option (String × Option Nat))
    (ifModifiedSince : Option Nat) : FeedResponse :=
  match file with
  | none =>
    { status := INTERNAL_SERVER_ERROR
      body := some "500.html"
      contentType := none
      lastModified := none }
  | some (content, modified) =>
    match modified, ifModifiedSince with
    | some m, some ifs =>
      if not_modified m ifs then
        { status := NOT_MODIFIED
          body := none
          contentType := none
          lastModified := some m }
      else
        feedOkResponse content modified
    | _, _ => feedOkResponse content modified

/-! ## Helper lemmas -/

lemma alphabet_length : ALPHABET.length = 62 := by decide

lemma alphabet_getD_mem {idx : Nat} (h : idx < 62) : ALPHABET.getD idx ' ' ∈ ALPHABET := by
  have hl : idx < ALPHABET.length := by rw [alphabet_length]; exact h
  rw [List.getD_eq_getElem ALPHABET ' ' hl]
  exact List.getElem_mem hl

lemma base62Go_spec (N : Nat) :
    ∀ (bs : List Nat) (id out : List Char), (∀ c ∈ id, c ∈ ALPHABET) →
      base62Go N bs id = some out → out.length = N ∧ ∀ c ∈ out, c ∈ ALPHABET := by
  intro bs
  induction bs with
  | nil => intro id out _ h; simp [base62Go] at h
  | cons b bs ih =>
    intro id out hid h
    rw [base62Go] at h
    set id' := if b &&& MASK < 62 then id ++ [ALPHABET.getD (b &&& MASK) ' '] else id with hid'
    have hmem : ∀ c ∈ id', c ∈ ALPHABET := by
      rw [hid']
      split
      · intro c hc
        rcases List.mem_append.mp hc with hc | hc
        · exact hid c hc
        · rcases List.mem_singleton.mp hc with rfl
          exact alphabet_getD_mem (by assumption)
      · exact hid
    by_cases hlen : id'.length = N
    · rw [if_pos hlen] at h
      obtain rfl : id' = out := Option.some.inj h
      exact ⟨hlen, hmem⟩
    · rw [if_neg hlen] at h
      exact ih id' out hmem h

lemma trimFilter_zero (now age : Int) : ∀ l : List Entry, trimFilter now age 0 l = l := by
  intro l
  induction l with
  | nil => rfl
  | cons e es ih => simp [trimFilter, ih]

lemma trimFilter_length (now age : Int) :
    ∀ (l : List Entry) (k : Nat), l.length - k ≤ (trimFilter now age k l).length := by
  intro l
  induction l with
  | nil => intro k; simp [trimFilter]
  | cons e es ih =>
    intro k
    by_cases hk : k = 0
    · subst hk
      rw [trimFilter, if_pos rfl]
      have := ih 0
      simp only [List.length_cons]
      omega
    · rw [trimFilter, if_neg hk]
      by_cases hage : now - e.updated > age
      · rw [if_pos hage]
        have := ih (k - 1)
        simp only [List.length_cons]
        omega
      · rw [if_neg hage]
        have := ih k
        simp only [List.length_cons]
        omega

lemma trimFilter_sublist (now age : Int) :
    ∀ (l : List Entry) (k : Nat), (trimFilter now age k l).Sublist l := by
  intro l
  induction l with
  | nil => intro k; simp [trimFilter]
  | cons e es ih =>
    intro k
    by_cases hk : k = 0
    · subst hk
      rw [trimFilter, if_pos rfl]
      exact (ih 0).cons₂ e
    · rw [trimFilter, if_neg hk]
      by_cases hage : now - e.updated > age
      · rw [if_pos hage]
        exact (ih (k - 1)).cons e
      · rw [if_neg hage]
        exact (ih k).cons₂ e

lemma trimFilter_dropped_old (now age : Int) :
    ∀ (l : List Entry) (k : Nat) (e : Entry),
      e ∈ l → e ∉ trimFilter now age k l → now - e.updated > age := by
  intro l
  induction l with
  | nil => intro k e he; cases he
  | cons a es ih =>
    intro k e he hnot
    by_cases hk : k = 0
    · subst hk
      rw [trimFilter_zero] at hnot
      exact absurd he hnot
    · rw [trimFilter, if_neg hk] at hnot
      by_cases hage : now - a.updated > age
      · rw [if_pos hage] at hnot
        rcases List.mem_cons.mp he with rfl | he
        · exact hage
        · exact ih (k - 1) e he hnot
      · rw [if_neg hage] at hnot
        rcases List.mem_cons.mp he with rfl | he
        · exact absurd (List.mem_cons_self e _) hnot
        · exact ih k e he fun hmem => hnot (List.mem_cons_of_mem a hmem)

lemma lastValue_append_singleton (key k v : String) (pairs : List (String × String)) :
    lastValue key (pairs ++ [(k, v)])
      = if k = key then some v else lastValue key pairs := by
  unfold lastValue
  rw [List.filter_append]
  by_cases h : k = key
  · simp [List.filter, h]
  · simp [List.filter, h]

/-! ## Claim theorems -/

/-- C7: the claim says a `Content-Type` of
`application/x-www-form-urlencoded; charset=UTF-8` passes content-type
validation.  The code compares the header value for exact string equality
with `application/x-www-form-urlencoded`, so any charset parameter is
rejected with 415 "Unsupported media type" — contradicting the claim and the
repository's own integration tests (tests/feedlynx.rs expects a
`charset=utf-8` POST to succeed and a `charset=UTF-16` POST to fail with
"Unsupported character set").  This theorem evaluates the code at the
failing input, alongside the bare media type that is accepted. -/
theorem C7_charset_utf8_rejected :
    validate_request (some "application/x-www-form-urlencoded; charset=UTF-8")
      = Except.error { code := UNSUPPORTED_MEDIA_TYPE, message := "Unsupported media type" }
    ∧ validate_request (some "application/x-www-form-urlencoded") = Except.ok () := by
  constructor <;> rfl

/-- C8 counterexample: the claim says `set_if_longer` replaces an existing
value only when the candidate is strictly longer **by character count**.
Rust's `str::len()` counts UTF-8 bytes: the candidate `"é"` (1 character,
2 bytes) replaces the existing `"a"` (1 character, 1 byte) although it is
not longer by character count. -/
theorem C8_counterexample :
    set_if_longer (some "a") "é" = some "é" ∧ ¬ "é".length > "a".length := by
  exact ⟨rfl, by decide⟩

/-- C8 (amended): `set_if_longer` replaces an existing value exactly when the
candidate is strictly longer in UTF-8 **byte** length; with equal or shorter
byte length the existing value is kept, and with no existing value the
candidate is installed. -/
theorem C8_set_if_longer_bytes (e c : String) :
    set_if_longer none c = some c
    ∧ (c.utf8ByteSize > e.utf8ByteSize → set_if_longer (some e) c = some c)
    ∧ (c.utf8ByteSize ≤ e.utf8ByteSize → set_if_longer (some e) c = some e) := by
  refine ⟨rfl, fun h => ?_, fun h => ?_⟩
  · simp [set_if_longer, h]
  · rw [set_if_longer, if_neg (by omega)]

/-- C8 witness: the amended theorem applied at `e = "ab"`, `c = "abc"`. -/
theorem C8_witness : set_if_longer (some "ab") "abc" = some "abc" :=
  (C8_set_if_longer_bytes "ab" "abc").2.1 (by decide)

/-- C9: whenever the generator returns a string (it loops until the entropy
stream has yielded enough accepted bytes), the string has exactly `N`
characters and every character belongs to the 62-symbol alphabet; moreover a
byte whose masked index is ≥ 62 is rejected and contributes no character to
the output. -/
theorem C9_generator_alphabet :
    (∀ (N : Nat) (stream : List Nat) (s : String),
      base62 N stream = some s → s.length = N ∧ ∀ c ∈ s.data, c ∈ ALPHABET)
    ∧ ∀ (N b : Nat) (bs : List Nat) (id : List Char),
        62 ≤ b &&& MASK → id.length ≠ N →
        base62Go N (b :: bs) id = base62Go N bs id := by
  constructor
  · intro N stream s h
    rw [base62] at h
    split at h
    · cases h
    · obtain ⟨out, hout, rfl⟩ := Option.map_eq_some'.mp h
      obtain ⟨hlen, hmem⟩ := base62Go_spec N stream [] out (by simp) hout
      exact ⟨hlen, hmem⟩
  · intro N b bs id hge hne
    rw [base62Go]
    have hidx : ¬ b &&& MASK < 62 := by omega
    rw [if_neg hidx, if_neg hne]

/-- C9 witness: the stream `[0, 1, 2]` yields the 3-character id `"Mod"`, and
a leading rejected byte (`255 &&& 63 = 63 ≥ 62`) leaves the computation
unchanged. -/
theorem C9_witness :
    "Mod".length = 3 ∧ base62Go 3 [255, 0] [] = base62Go 3 [0] [] :=
  ⟨(C9_generator_alphabet.1 3 [0, 1, 2] "Mod" (by decide)).1,
   C9_generator_alphabet.2 3 255 [0] [] (by decide) (by decide)⟩

/-- C5: on the feed route with the file open and its mtime known, a present
`If-Modified-Since` whose whole-second value is at least the mtime's
whole-second value yields 304 with a `Last-Modified` header and no body;
otherwise — including when the header is absent or unparsable (`none`) — the
response is 200 with the full file body, `Content-Type:
application/atom+xml`, and a `Last-Modified` header carrying the mtime. -/
theorem C5_conditional_get (content : String) (m ifs : Nat) :
    (m / 1000000000 ≤ ifs / 1000000000 →
      handleFeedRoute (some (content, some m)) (some ifs)
        = { status := NOT_MODIFIED, body := none, contentType := none,
            lastModified := some m })
    ∧ (¬ m / 1000000000 ≤ ifs / 1000000000 →
      handleFeedRoute (some (content, some m)) (some ifs)
        = { status := 200, body := some content,
            contentType := some "application/atom+xml", lastModified := some m })
    ∧ handleFeedRoute (some (content, some m)) none
        = { status := 200, body := some content,
            contentType := some "application/atom+xml", lastModified := some m } := by
  refine ⟨fun h => ?_, fun h => ?_, rfl⟩
  · simp [handleFeedRoute, not_modified, h]
  · simp [handleFeedRoute, not_modified, h, feedOkResponse]

/-- C5 witness: mtime 5.000000000 s against header 5.999999999 s is not
modified (truncation to whole seconds), while mtime 6 s against header 5 s
serves the full body. -/
theorem C5_witness :
    handleFeedRoute (some ("feedxml", some 5000000000)) (some 5999999999)
      = { status := NOT_MODIFIED, body := none, contentType := none,
          lastModified := some 5000000000 }
    ∧ handleFeedRoute (some ("feedxml", some 6000000000)) (some 5000000000)
      = { status := 200, body := some "feedxml",
          contentType := some "application/atom+xml",
          lastModified := some 6000000000 } :=
  ⟨(C5_conditional_get "feedxml" 5000000000 5999999999).1 (by norm_num),
   (C5_conditional_get "feedxml" 6000000000 5000000000).2.1 (by norm_num)⟩

/-- C10: among repeated `token`, `url` and `title` keys in the form body, the
`for_each` walk of `Server::add` overwrites its accumulator on every match,
so the value used downstream is the last occurrence of each key in body
order; `Server::info`'s walk does likewise for `token`. -/
theorem C10_last_occurrence_wins (pairs : List (String × String)) :
    extractAddForm pairs
      = { token := lastValue "token" pairs
          url := lastValue "url" pairs
          title := lastValue "title" pairs }
    ∧ extractInfoToken pairs = lastValue "token" pairs := by
  induction pairs using List.reverseRecOn with
  | nil => exact ⟨rfl, rfl⟩
  | append_singleton pairs kv ih =>
    obtain ⟨k, v⟩ := kv
    obtain ⟨ih1, ih2⟩ := ih
    rw [extractAddForm, List.foldl_append] at *
    rw [extractInfoToken, List.foldl_append] at *
    rw [lastValue_append_singleton, lastValue_append_singleton,
      lastValue_append_singleton]
    simp only [List.foldl_cons, List.foldl_nil]
    constructor
    · rw [ih1]
      by_cases h1 : k = "token"
      · subst h1; simp
      · by_cases h2 : k = "url"
        · subst h2; simp
        · by_cases h3 : k = "title"
          · subst h3; simp
          · simp only [if_neg h1, if_neg h2, if_neg h3]
    · rw [ih2]
      by_cases h1 : k = "token"
      · subst h1; simp
      · simp only [if_neg h1]

/-- C3: trimming never reduces the entry count below the floor — the result
has at least `min (original count) min_entries` entries, no matter how many
entries are older than the trim age. -/
theorem C3_trim_respects_floor (entries : List Entry) (min_entries : Nat)
    (trim_age now : Int) :
    min entries.length min_entries ≤ (trim_entries entries min_entries trim_age now).length := by
  rw [trim_entries]
  by_cases h : entries.length ≤ min_entries
  · rw [if_pos h]
    exact Nat.min_le_left entries.length min_entries
  · rw [if_neg h]
    show min entries.length min_entries ≤
      (trimFilter now trim_age (entries.length - min_entries)
        (entries.mergeSort fun a b => decide (a.updated ≤ b.updated))).length
    have h1 := trimFilter_length now trim_age
      (entries.mergeSort fun a b => decide (a.updated ≤ b.updated))
      (entries.length - min_entries)
    rw [List.length_mergeSort] at h1
    omega

/-- An entry as built by the `test_entry` helper of feed.rs's test module
(unique id fixed, summary elided). -/
def test_entry (title : String) (updated : Int) : Entry :=
  { title := title
    id := "tag:feedlynx.7bit.org,2024:BBPslb1dYm9x1KOz"
    updated := updated
    links := []
    authors := [{ name := "Author" }] }

/-- C4: trimming sorts by `updated` ascending and then only drops — the
result is a sublist of the sorted entry list, and every dropped entry is
older than the trim age (oldest-first eviction follows from the ascending
sort order); in particular, four entries of ages 11 s, 12 s, 13 s, 14 s
(oldest last, not pre-sorted) with floor 2 and trim age 10 s retain exactly
the two youngest entries, youngest last. -/
theorem C4_trim_sorted_oldest_first :
    (∀ (entries : List Entry) (m : Nat) (age now : Int), m < entries.length →
      (trim_entries entries m age now).Sublist
          (entries.mergeSort fun a b => decide (a.updated ≤ b.updated))
      ∧ ∀ e ∈ entries.mergeSort (fun a b => decide (a.updated ≤ b.updated)),
          e ∉ trim_entries entries m age now → now - e.updated > age)
    ∧ trim_entries
        [test_entry "Test 1" 89, test_entry "Test 2" 88,
         test_entry "Test 3" 87, test_entry "Test 4" 86] 2 10 100
      = [test_entry "Test 2" 88, test_entry "Test 1" 89] := by
  constructor
  · intro entries m age now hm
    rw [trim_entries, if_neg (by omega)]
    exact ⟨trimFilter_sublist now age _ _,
      fun e he hnot => trimFilter_dropped_old now age _ _ e he hnot⟩
  · simp [trim_entries, List.mergeSort, List.splitInTwo, List.merge, trimFilter,
      test_entry]

/-- C4 witness: the general part applied to a single entry with floor 0. -/
theorem C4_witness :
    (trim_entries [test_entry "Solo" 0] 0 5 100).Sublist
      ([test_entry "Solo" 0].mergeSort fun a b => decide (a.updated ≤ b.updated)) :=
  (C4_trim_sorted_oldest_first.1 [test_entry "Solo" 0] 0 5 100 (by decide)).1

/-- C1: for any feed and any URL whose string form matches no link href of
any existing entry, `add_url_if_new` returns `Added` and appends exactly one
entry — whose single link is an `alternate` link with that URL as href — to
the end of the entry list (count `+1`); immediately repeating the call with
the identical URL string returns `Duplicate` and leaves the feed unchanged. -/
theorem C1_add_if_new_then_duplicate (feed : AtomFeed) (url : String)
    (page page2 : WebPage) (now now2 : Int) (newId newId2 : String)
    (h : ∀ e ∈ feed.entries, ∀ l ∈ e.links, l.href ≠ url) :
    (feed.add_url_if_new url page now newId).1 = AddResult.Added
    ∧ ((feed.add_url_if_new url page now newId).2).entries.length
        = feed.entries.length + 1
    ∧ ((feed.add_url_if_new url page now newId).2).entries
        = feed.entries ++
          [{ title := page.title.getD "Untitled", id := newId, updated := now,
             links := [{ href := url, rel := "alternate" }],
             authors := (page.author.map fun author =>
               [{ name := author : Person }]).getD [] }]
    ∧ ((feed.add_url_if_new url page now newId).2).add_url_if_new url page2 now2 newId2
        = (AddResult.Duplicate, (feed.add_url_if_new url page now newId).2) := by
  have hdup : (feed.entries.any fun entry =>
      entry.links.any fun link => link.href == url) = false := by
    simp only [List.any_eq_false, List.any_eq_true, beq_iff_eq, not_exists, not_and]
    exact h
  have hmain : feed.add_url_if_new url page now newId
      = (AddResult.Added, feed.add_url url page now newId) := by
    rw [AtomFeed.add_url_if_new]
    simp [hdup]
  rw [hmain]
  have hagain : ((feed.add_url url page now newId).entries.any fun entry =>
      entry.links.any fun link => link.href == url) = true := by
    simp [AtomFeed.add_url, setGenerator, List.any_append]
  refine ⟨rfl, ?_, ?_, ?_⟩
  · simp [AtomFeed.add_url, setGenerator]
  · simp [AtomFeed.add_url, setGenerator]
  · rw [AtomFeed.add_url_if_new]
    simp [hagain]

/-- A fresh feed like `Feed::generate_new` builds (concrete id). -/
def emptyTestFeed : AtomFeed :=
  { title := "feedlynx"
    id := "tag:feedlynx.7bit.org,2024:feed00000000000"
    updated := 0
    authors := [{ name := "feedlynx", uri := some "https://github.com/wezm/feedlynx" }]
    generator := some { value := "feedlynx", version := some cargoPkgVersion }
    entries := [] }

/-- C1 witness: adding `http://example.com/` to an empty feed. -/
theorem C1_witness :
    (emptyTestFeed.add_url_if_new "http://example.com/" {} 0 "tag:a").1 = AddResult.Added
    ∧ ((emptyTestFeed.add_url_if_new "http://example.com/" {} 0 "tag:a").2).entries.length
        = emptyTestFeed.entries.length + 1 :=
  (fun H => ⟨H.1, H.2.1⟩)
    (C1_add_if_new_then_duplicate emptyTestFeed "http://example.com/" {} {} 0 1
      "tag:a" "tag:b" (by simp [emptyTestFeed]))

/-- C6: `POST /add` input validation — `application/json` content type gives
415; a missing `Content-Type` header gives 400; with the correct content
type, a `token` field differing from the private token gives 401; a correct
token with an absent or unparsable `url` field gives 400; a body with no
`token` field gives 400. -/
theorem C6_add_error_statuses (priv : String) (pairs : List (String × String))
    (parse : String → Option String) (fetched : String → Option WebPage)
    (feedFile : Option AtomFeed) (saveOk : Bool) (now : Int) (newId : String) :
    (handleAdd priv (some "application/json") pairs parse fetched feedFile
        saveOk now newId).1 = UNSUPPORTED_MEDIA_TYPE
    ∧ (handleAdd priv none pairs parse fetched feedFile saveOk now newId).1
        = BAD_REQUEST
    ∧ (∀ t, (extractAddForm pairs).token = some t → priv ≠ t →
        (handleAdd priv (some "application/x-www-form-urlencoded") pairs parse
          fetched feedFile saveOk now newId).1 = UNAUTHORIZED)
    ∧ ((extractAddForm pairs).token = some priv →
        (extractAddForm pairs).url.bind parse = none →
        (handleAdd priv (some "application/x-www-form-urlencoded") pairs parse
          fetched feedFile saveOk now newId).1 = BAD_REQUEST)
    ∧ ((extractAddForm pairs).token = none →
        (handleAdd priv (some "application/x-www-form-urlencoded") pairs parse
          fetched feedFile saveOk now newId).1 = BAD_REQUEST) := by
  refine ⟨rfl, rfl, fun t ht hpt => ?_, fun ht hurl => ?_, fun ht => ?_⟩
  · rw [handleAdd, Server.add]
    simp [validate_request, ht, hpt]
  · rw [handleAdd, Server.add]
    simp [validate_request, ht, hurl]
  · rw [handleAdd, Server.add]
    simp [validate_request, ht]

/-- C6 witness: the three validation branches with hypotheses, at concrete
inputs (wrong token; correct token but no parsable URL; no token). -/
theorem C6_witness :
    (handleAdd "tok" (some "application/x-www-form-urlencoded") [("token", "bad")]
        Option.some (fun _ => none) none true 0 "id").1 = UNAUTHORIZED
    ∧ (handleAdd "tok" (some "application/x-www-form-urlencoded") [("token", "tok")]
        Option.some (fun _ => none) none true 0 "id").1 = BAD_REQUEST
    ∧ (handleAdd "tok" (some "application/x-www-form-urlencoded") []
        Option.some (fun _ => none) none true 0 "id").1 = BAD_REQUEST :=
  ⟨(C6_add_error_statuses "tok" [("token", "bad")] Option.some (fun _ => none)
      none true 0 "id").2.2.1 "bad" rfl (by decide),
   (C6_add_error_statuses "tok" [("token", "tok")] Option.some (fun _ => none)
      none true 0 "id").2.2.2.1 rfl rfl,
   (C6_add_error_statuses "tok" [] Option.some (fun _ => none)
      none true 0 "id").2.2.2.2 rfl⟩

/-- The feed the integration test builds after one successful add: a single
entry whose alternate link href is `http://example.com/`. -/
def exampleFeed : AtomFeed :=
  { title := "feedlynx"
    id := "tag:feedlynx.7bit.org,2024:feedid00000000"
    updated := 0
    authors := [{ name := "feedlynx" }]
    generator := some { value := "feedlynx", version := some cargoPkgVersion }
    entries :=
      [{ title := "Example"
         id := "tag:feedlynx.7bit.org,2024:existing000000"
         updated := 0
         links := [{ href := "http://example.com/", rel := "alternate" }]
         authors := [] }] }

/-- C2: evaluating the code at the failing input.  An authorized `POST /add`
for a URL that already matches an existing entry's link href is answered
201 "Added" — not "Duplicate" — and a second entry with the same href is
appended, because `Server::add` calls `Feed::add_url` unconditionally
instead of `Feed::add_url_if_new` (whose result on the same input, shown in
the last conjunct, is `Duplicate` with the feed unchanged). -/
theorem C2_duplicate_url_added_again :
    handleAdd "TestTestTestTestTestTestTest1234"
        (some "application/x-www-form-urlencoded")
        [("url", "http://example.com/"), ("token", "TestTestTestTestTestTestTest1234")]
        Option.some (fun _ => none) (some exampleFeed) true 5
        "tag:feedlynx.7bit.org,2024:new00000000000"
      = (CREATED, "Added\n")
    ∧ (Server.add "TestTestTestTestTestTestTest1234"
        (some "application/x-www-form-urlencoded")
        [("url", "http://example.com/"), ("token", "TestTestTestTestTestTestTest1234")]
        Option.some (fun _ => none) (some exampleFeed) true 5
        "tag:feedlynx.7bit.org,2024:new00000000000").map
          (fun feed => feed.entries.map fun e => e.links.map Link.href)
      = Except.ok [["http://example.com/"], ["http://example.com/"]]
    ∧ exampleFeed.add_url_if_new "http://example.com/" {} 5
        "tag:feedlynx.7bit.org,2024:new00000000000"
      = (AddResult.Duplicate, exampleFeed) := by
  refine ⟨rfl, rfl, rfl⟩
